import Mathlib

/-!
Verification of the request-execution engine of the `redjohnsh/http` repository.

The repository ships two concatenated engine variants in `src/index.ts`:
* the `Builder` variant (class `Builder`, method `response`, helpers
  `shouldRetryRequest`, `mergeAbortSignals`, `#handleError`), with retry,
  exponential backoff and error classification; and
* the `tryRequest` variant (function `tryRequest` with `mergeSignals`),
  which retries only on thrown timeout/network exceptions.

Each TypeScript function used by the claims is shallowly embedded below as an
executable Lean definition.  JS strings are embedded as `String`/`List Char`,
JS numbers appearing in delay arithmetic as `Int`, and the asynchronous
control flow of one execution as a pure function from the transport's
per-attempt behaviour to a trace of observable events plus a final outcome.
-/

namespace HttpSpec

/-! ## Constants (src/index.ts lines 929-933, 517) -/

/-- `const MIN_RETRY_DELAY = 200` (src/index.ts line 929). -/
def MIN_RETRY_DELAY : Int := 200

/-- `const MAX_RETRY_DELAY = 10_000` (src/index.ts line 930). -/
def MAX_RETRY_DELAY : Int := 10000

/-- `const RETRY_CODE_LIST = [408, 409, 425, 429, 500, 502, 503, 504]`
(src/index.ts lines 931-933). -/
def RETRY_CODE_LIST : List Nat := [408, 409, 425, 429, 500, 502, 503, 504]

/-- `const TIMEOUT_MESSAGE = "Request timed out"` (src/index.ts line 517,
`tryRequest` variant). -/
def TIMEOUT_MESSAGE : String := "Request timed out"

/-! ## Responses -/

/-- The part of a platform `Response` observed by the engine: its status code
and the value of `response.headers.get("Retry-After")` (`none` models the
header being absent, i.e. `get` returning `null`). -/
structure JsResponse where
  status : Nat
  retryAfter : Option String
deriving DecidableEq, Repr

/-- `response.ok`: status in the inclusive range 200-299 (platform fetch
semantics, used at src/index.ts line 1267 and 557). -/
def JsResponse.ok (r : JsResponse) : Bool :=
  decide (200 ≤ r.status) && decide (r.status ≤ 299)

/-! ## JS `parseInt(s, 10)` -/

/-- Digit accumulator for `jsParseInt`. -/
def digitsVal (l : List Char) : Int :=
  l.foldl (fun a c => a * 10 + (Int.ofNat (c.toNat - '0'.toNat))) 0

/-- Model of JavaScript `parseInt(s, 10)` (used at src/index.ts line 1281):
skip leading whitespace, read an optional sign, then the longest prefix of
decimal digits; the result is `NaN` (here `none`) when no digit follows. -/
def jsParseInt (s : String) : Option Int :=
  let cs := s.data.dropWhile Char.isWhitespace
  let signAndRest : Int × List Char :=
    match cs with
    | '-' :: rest => (-1, rest)
    | '+' :: rest => (1, rest)
    | _ => (1, cs)
  let digits := signAndRest.2.takeWhile Char.isDigit
  if digits = [] then none
  else some (signAndRest.1 * digitsVal digits)

/-! ## Backoff computation (src/index.ts lines 1277-1290) -/

/-- The backoff delay computed inside `Builder.response` for a retried
attempt `currentAttempt`:
`let backoffDelay = retryDelay * 2 ** (currentAttempt - 1)`, then, when the
`Retry-After` header is present and truthy and `parseInt(retryAfter, 10)` is
not `NaN`, `backoffDelay = Math.max(retryAfterSeconds * 1_000, backoffDelay)`,
and finally
`backoffDelay = Math.min(MAX_RETRY_DELAY, Math.max(MIN_RETRY_DELAY, backoffDelay))`. -/
def computeBackoff (retryDelay : Int) (currentAttempt : Nat)
    (retryAfter : Option String) : Int :=
  let base := retryDelay * (2 : Int) ^ (currentAttempt - 1)
  let b :=
    match retryAfter with
    | none => base
    | some s =>
      if s = "" then base
      else
        match jsParseInt s with
        | none => base
        | some sec => max (sec * 1000) base
  min MAX_RETRY_DELAY (max MIN_RETRY_DELAY b)

/-! ## Retry predicate (src/index.ts lines 935-946) -/

/-- `shouldRetryRequest(request, response, currentAttempt, maxAttempts)`:
`currentAttempt < maxAttempts && request.method === "GET" &&
RETRY_CODE_LIST.includes(response.status)`. -/
def shouldRetryRequest (method : String) (status : Nat)
    (currentAttempt maxAttempts : Nat) : Bool :=
  decide (currentAttempt < maxAttempts) && (method == "GET")
    && RETRY_CODE_LIST.contains status

/-! ## Error classification (src/index.ts lines 965-986) -/

/-- A value thrown by the transport call (`fetch` rejecting): either a
`ServerError` instance, an `Error`-like object carrying its `name` and
`message` properties (this covers `DOMException`s, which are `Error`
subclasses in modern engines), or a thrown non-`Error` value. -/
inductive JsError where
  | serverErr (r : JsResponse)
  | errObj (name message : String)
  | nonError
deriving DecidableEq, Repr

/-- The classified failures produced by `Builder.#handleError`: the error
classes `ServerError`, `AbortError`, `NetworkError`, `TimeoutError`,
`UnknownError` of src/index.ts lines 659-701. -/
inductive HttpFailure where
  | serverError (r : JsResponse)
  | abortError (msg : String)
  | networkError (msg : String)
  | timeoutError (msg : String)
  | unknownError (msg : String)
deriving DecidableEq, Repr

/-- `Builder.#handleError` (src/index.ts lines 965-986): a `ServerError` is
returned unchanged; any other `Error` is dispatched on its `name`
(`AbortError` → `AbortError`, `NetworkError`/`ConnectionRefused`/`TypeError`
→ `NetworkError`, `TimeoutError` → `TimeoutError`); everything else becomes
`UnknownError("An unknown error occurred.")`. -/
def handleError : JsError → HttpFailure
  | .serverErr r => .serverError r
  | .errObj name msg =>
    if name = "AbortError" then .abortError msg
    else if name = "NetworkError" ∨ name = "ConnectionRefused" ∨ name = "TypeError" then
      .networkError msg
    else if name = "TimeoutError" then .timeoutError msg
    else .unknownError "An unknown error occurred."
  | .nonError => .unknownError "An unknown error occurred."

/-- Re-classification applied when an already-classified failure thrown by a
nested retry attempt crosses an enclosing `catch (err) { throw
this.#handleError(err); }` (src/index.ts line 1300).  A `ServerError` passes
the `instanceof ServerError` test and is kept; `AbortError`, `NetworkError`,
`TimeoutError` and `UnknownError` do not set `this.name`, so their `name` is
the inherited `"Error"` and the `switch` falls through to
`UnknownError("An unknown error occurred.")`. -/
def rewrapFailure : HttpFailure → HttpFailure
  | .serverError r => .serverError r
  | _ => .unknownError "An unknown error occurred."

/-! ## The execution engine `Builder.response` (src/index.ts lines 1236-1305) -/

/-- What the transport (`fetch`) does on a given attempt: resolve with a
response or reject with a thrown value. -/
inductive FetchOutcome where
  | resolved (r : JsResponse)
  | rejected (e : JsError)
deriving DecidableEq, Repr

/-- Observable events of one execution of `Builder.response`, in program
order: per attempt, the merged abort signal is created
(`mergeAbortSignals(AbortSignal.timeout(timeout), this.#signal)`), a fresh
`Request` is constructed, `beforeSend` is awaited, `fetch(request)` is
invoked; when it resolves, `onResponse` is invoked with that response; when
the attempt is retried, `await delay(backoffDelay)` is performed. -/
inductive Ev where
  | signalCreated (attempt : Nat)
  | requestCreated (attempt : Nat)
  | beforeSendCalled (attempt : Nat)
  | fetchCalled (attempt : Nat)
  | onResponseCalled (attempt : Nat) (status : Nat)
  | delayed (attempt : Nat) (ms : Int)
deriving DecidableEq, Repr

namespace Builder

/-- The inner `run(currentAttempt)` of `Builder.response` (src/index.ts lines
1237-1302), as a pure function of the transport's behaviour.  The TypeScript
recursion `return await run(currentAttempt + 1)` only happens when
`shouldRetryRequest` holds, hence when `currentAttempt < retry`; the extra
`fuel` argument (instantiated with `retry` by `Builder.response`) makes this
bounded recursion structural.  The fuel-exhausted branch is unreachable from
`Builder.response` because `fuel = retry - currentAttempt + ...` stays large
enough (`run_fuel_stable` below proves the result is independent of any
sufficient fuel). -/
def run (method : String) (retry : Nat) (retryDelay : Int)
    (transport : Nat → FetchOutcome) :
    Nat → Nat → List Ev × Except HttpFailure JsResponse
  | 0, currentAttempt =>
    -- With no fuel left, the retried branch of the source collapses to the
    -- same `ServerError` result as the non-retried branch (it is unreachable
    -- from `response`, see `run_fuel_stable`), so the two `else` arms merge.
    let pre : List Ev :=
      [.signalCreated currentAttempt, .requestCreated currentAttempt,
       .beforeSendCalled currentAttempt, .fetchCalled currentAttempt]
    match transport currentAttempt with
    | .rejected e => (pre, .error (handleError e))
    | .resolved r =>
      let evs := pre ++ [.onResponseCalled currentAttempt r.status]
      if r.ok then (evs, .ok r)
      else (evs, .error (.serverError r))
  | fuel + 1, currentAttempt =>
    let pre : List Ev :=
      [.signalCreated currentAttempt, .requestCreated currentAttempt,
       .beforeSendCalled currentAttempt, .fetchCalled currentAttempt]
    match transport currentAttempt with
    | .rejected e => (pre, .error (handleError e))
    | .resolved r =>
      let evs := pre ++ [.onResponseCalled currentAttempt r.status]
      if r.ok then (evs, .ok r)
      else if shouldRetryRequest method r.status currentAttempt retry then
        let d := computeBackoff retryDelay currentAttempt r.retryAfter
        let next := run method retry retryDelay transport fuel (currentAttempt + 1)
        (evs ++ .delayed currentAttempt d :: next.1, next.2.mapError rewrapFailure)
      else (evs, .error (.serverError r))

/-- `Builder.response()` (src/index.ts line 1304): `return run()`, i.e. the
inner loop started at `currentAttempt = 1`.  The destructuring defaults of
the source are `retry = 0`, `retryDelay = 500`. -/
def response (method : String) (retry : Nat) (retryDelay : Int)
    (transport : Nat → FetchOutcome) : List Ev × Except HttpFailure JsResponse :=
  run method retry retryDelay transport retry 1

end Builder

/-! ## Trace observations -/

/-- Recognizes a transport-call event. -/
def isFetchEv : Ev → Bool
  | .fetchCalled _ => true
  | _ => false

/-- Recognizes a `beforeSend` invocation event. -/
def isBeforeSendEv : Ev → Bool
  | .beforeSendCalled _ => true
  | _ => false

/-- Number of transport calls recorded in a trace. -/
def numCalls (t : List Ev) : Nat := t.countP isFetchEv

/-- The awaited backoff delays recorded in a trace, in order. -/
def delaysOf (t : List Ev) : List Int :=
  t.filterMap fun e =>
    match e with
    | .delayed _ d => some d
    | _ => none

/-- The attempt a trace event belongs to. -/
def Ev.attemptOf : Ev → Nat
  | .signalCreated a => a
  | .requestCreated a => a
  | .beforeSendCalled a => a
  | .fetchCalled a => a
  | .onResponseCalled a _ => a
  | .delayed a _ => a

/-- The events of a trace belonging to attempt `k`. -/
def attemptEvents (k : Nat) (t : List Ev) : List Ev :=
  t.filter fun e => e.attemptOf == k

/-- The `Retry-After` header value of the response the transport resolves
with on attempt `k` (`none` when the transport rejects on attempt `k`). -/
def retryAfterAt (transport : Nat → FetchOutcome) (k : Nat) : Option String :=
  match transport k with
  | .resolved r => r.retryAfter
  | .rejected _ => none

/-! ## The `tryRequest` engine variant (src/index.ts lines 519-592) -/

/-- JS `haystack.includes(needle)` on character lists. -/
def jsIncludes : List Char → List Char → Bool
  | h, n =>
    if n.isPrefixOf h then true
    else
      match h with
      | [] => false
      | _ :: t => jsIncludes t n

/-- A value thrown by the transport inside `tryRequest`, matching the guards
of its `catch` block: a thrown string, a `DOMException` (dispatched on its
`name`), a `TypeError` (dispatched on its `message`), or anything else. -/
inductive TryThrown where
  | thrownString (s : String)
  | domException (name message : String)
  | typeErrorThrown (message : String)
  | otherThrown
deriving DecidableEq, Repr

/-- Transport behaviour on one attempt of `tryRequest`. -/
inductive TryOutcome where
  | resolved (r : JsResponse)
  | rejectedT (e : TryThrown)
deriving DecidableEq, Repr

/-- The `HttpError` type of the `tryRequest` variant (src/index.ts lines
23-33): `SERVER_ERROR` carrying a response or `CLIENT_ERROR` carrying a
message. -/
inductive HttpErrorV1 where
  | serverErrorV1 (r : JsResponse)
  | clientErrorV1 (message : String)
deriving DecidableEq, Repr

/-- `tryRequest(context, currentAttempt)` (src/index.ts lines 519-592), with
destructuring defaults `retries = 1`, `retryDelay = 1000`.  A resolved
response that is not `ok` returns `failure(serverError(response))` at once;
only a thrown string containing `TIMEOUT_MESSAGE` or a `TypeError` whose
message contains `"Failed to fetch."` is retried, each while
`currentAttempt < retries`, after `await delay(retryDelay * 2 **
currentAttempt)`.  As in `Builder.run`, the recursion is bounded by
`currentAttempt < retries`, so the `fuel` argument (instantiated with
`retries` at the top level) makes it structural and the fuel-exhausted
branches are unreachable there. -/
def tryRequest (retries : Nat) (retryDelay : Int) (transport : Nat → TryOutcome) :
    Nat → Nat → List Ev × Except HttpErrorV1 JsResponse
  | 0, currentAttempt =>
    -- With no fuel left, the two retried branches of the source collapse to
    -- the same failures as their non-retried arms (unreachable from a
    -- `retries`-fueled start), so the `currentAttempt < retries` tests merge.
    let call : List Ev := [.fetchCalled currentAttempt]
    match transport currentAttempt with
    | .resolved r =>
      if r.ok then (call, .ok r) else (call, .error (.serverErrorV1 r))
    | .rejectedT e =>
      match e with
      | .thrownString s =>
        if jsIncludes s.data TIMEOUT_MESSAGE.data then
          (call, .error (.clientErrorV1 TIMEOUT_MESSAGE))
        else (call, .error (.clientErrorV1 ("Request was aborted: " ++ s)))
      | .domException name msg =>
        if name = "AbortError" then (call, .error (.clientErrorV1 msg))
        else (call, .error (.clientErrorV1 "Unknown error."))
      | .typeErrorThrown msg =>
        if jsIncludes msg.data "Failed to fetch.".data then
          (call, .error (.clientErrorV1 "Network error."))
        else (call, .error (.clientErrorV1 "Unknown error."))
      | .otherThrown => (call, .error (.clientErrorV1 "Unknown error."))
  | fuel + 1, currentAttempt =>
    let call : List Ev := [.fetchCalled currentAttempt]
    match transport currentAttempt with
    | .resolved r =>
      if r.ok then (call, .ok r) else (call, .error (.serverErrorV1 r))
    | .rejectedT e =>
      match e with
      | .thrownString s =>
        if jsIncludes s.data TIMEOUT_MESSAGE.data then
          if currentAttempt < retries then
            let next := tryRequest retries retryDelay transport fuel (currentAttempt + 1)
            (call ++ .delayed currentAttempt (retryDelay * (2 : Int) ^ currentAttempt)
              :: next.1, next.2)
          else (call, .error (.clientErrorV1 TIMEOUT_MESSAGE))
        else (call, .error (.clientErrorV1 ("Request was aborted: " ++ s)))
      | .domException name msg =>
        if name = "AbortError" then (call, .error (.clientErrorV1 msg))
        else (call, .error (.clientErrorV1 "Unknown error."))
      | .typeErrorThrown msg =>
        if jsIncludes msg.data "Failed to fetch.".data then
          if currentAttempt < retries then
            let next := tryRequest retries retryDelay transport fuel (currentAttempt + 1)
            (call ++ .delayed currentAttempt (retryDelay * (2 : Int) ^ currentAttempt)
              :: next.1, next.2)
          else (call, .error (.clientErrorV1 "Network error."))
        else (call, .error (.clientErrorV1 "Unknown error."))
      | .otherThrown => (call, .error (.clientErrorV1 "Unknown error."))

/-- The thrown values that the `catch` block of `tryRequest` ever retries: a
thrown string containing `TIMEOUT_MESSAGE`, or a `TypeError` whose message
contains `"Failed to fetch."`. -/
def tryRetryClass : TryThrown → Bool
  | .thrownString s => jsIncludes s.data TIMEOUT_MESSAGE.data
  | .typeErrorThrown msg => jsIncludes msg.data "Failed to fetch.".data
  | _ => false

/-! ## The signal composer `mergeAbortSignals` (src/index.ts lines 1393-1425)

An `AbortSignal` is modelled by whether it is aborted and with which reason;
`mergeAbortSignals` only ever calls `controller.abort()` with no argument,
which aborts with a fresh `"AbortError"` `DOMException`. -/

/-- Abort reasons: an arbitrary host value carried by a source signal, the
fresh generic `"AbortError"` `DOMException` produced by `controller.abort()`
with no argument, or the `"TimeoutError"` `DOMException` produced by
`AbortSignal.timeout`. -/
inductive Reason where
  | host (tag : Nat)
  | genericAbortError
  | timeoutErr
deriving DecidableEq, Repr

/-- The state of the composition returned by `mergeAbortSignals`:
whether/why the output signal is aborted, which source signals still carry
the `onAbort` listener registered by the composition, and whether the
cleanup listener attached on the output signal can still fire (attaching a
listener to an already-aborted signal never fires it). -/
structure MergedState where
  outAborted : Bool
  outReason : Option Reason
  tListener : Bool
  uListener : Bool
  cleanupArmed : Bool
deriving DecidableEq, Repr

/-- `mergeAbortSignals(timeoutSignal, userSignal?)` (src/index.ts lines
1393-1425), evaluated on the states of its inputs at call time.
`t = some r` means the timeout signal is already aborted with reason `r`;
`u = none` means no user signal was supplied, `u = some none` an unfired
user signal, `u = some (some r)` a user signal already aborted with `r`.
Line by line: if `timeoutSignal.aborted` then `controller.abort()` (no
argument) else `timeoutSignal.addEventListener("abort", onAbort)`; same for
the optional user signal; finally `signal.addEventListener("abort", <cleanup>)`
on the output signal, which can only ever fire when the output signal was
not already aborted at that point. -/
def mergeAbortSignals (t : Option Reason) (u : Option (Option Reason)) : MergedState :=
  let afterT : Bool × Bool :=
    match t with
    | some _ => (true, false)
    | none => (false, true)
  let afterU : Bool × Bool :=
    match u with
    | none => (afterT.1, false)
    | some (some _) => (true, false)
    | some none => (afterT.1, true)
  { outAborted := afterU.1
    outReason := if afterU.1 then some .genericAbortError else none
    tListener := afterT.2
    uListener := afterU.2
    cleanupArmed := !afterU.1 }

/-- `controller.abort()` on the output controller: a no-op when already
aborted; otherwise the output signal becomes aborted with a fresh generic
`"AbortError"` reason and its abort event is dispatched, so the cleanup
listener (if armed) runs and removes `onAbort` from both source signals. -/
def abortOutput (s : MergedState) : MergedState :=
  if s.outAborted then s
  else
    let fired : MergedState :=
      { s with outAborted := true, outReason := some .genericAbortError }
    if s.cleanupArmed then
      { fired with tListener := false, uListener := false, cleanupArmed := false }
    else fired

/-- The timeout source signal aborts with reason `r`: its abort event runs
`onAbort` when that listener is still attached.  `onAbort` is
`() => controller.abort()` (src/index.ts line 1400), which ignores the
source's reason `r`. -/
def fireTimeoutSignal (_r : Reason) (s : MergedState) : MergedState :=
  if s.tListener then abortOutput s else s

/-- The user source signal aborts with reason `r`; as with
`fireTimeoutSignal`, `onAbort` ignores `r`. -/
def fireUserSignal (_r : Reason) (s : MergedState) : MergedState :=
  if s.uListener then abortOutput s else s

/-! ## Path construction `HttpClient.#pathname` (src/index.ts lines 851-871) -/

/-- A path segment passed to the client: a number, a string (embedded as its
character list), or `null`/`undefined`. -/
inductive PathSegment where
  | num (n : Int)
  | str (s : List Char)
  | nullish
deriving DecidableEq, Repr

/-- JS `String.prototype.trim()` on character lists (whitespace at both
ends removed). -/
def jsTrim (s : List Char) : List Char :=
  ((s.dropWhile Char.isWhitespace).reverse.dropWhile Char.isWhitespace).reverse

/-- Decimal digit character (`d` is always `< 10` at use sites). -/
def digitChar (d : Nat) : Char :=
  match d with
  | 0 => '0' | 1 => '1' | 2 => '2' | 3 => '3' | 4 => '4'
  | 5 => '5' | 6 => '6' | 7 => '7' | 8 => '8' | 9 => '9'
  | _ => '0'

/-- Decimal digits of a natural number, most significant first; `fuel`
bounds the recursion depth (any `fuel > number of digits` is enough). -/
def natChars : Nat → Nat → List Char
  | 0, _ => []
  | fuel + 1, n =>
    if n < 10 then [digitChar n] else natChars fuel (n / 10) ++ [digitChar (n % 10)]

/-- JS `String(segment)` for an integral number segment. -/
def intToChars (n : Int) : List Char :=
  if n < 0 then '-' :: natChars (n.natAbs + 1) n.natAbs
  else natChars (n.natAbs + 1) n.natAbs

/-- The per-string-segment processing of `HttpClient.#pathname`:
`segment = segment.trim()`; then `if (segment.startsWith("/")) segment =
segment.slice(1)`; then `if (segment.endsWith("/")) segment =
segment.slice(0, -1)`. -/
def processStringSegment (s : List Char) : List Char :=
  let t := jsTrim s
  let t1 := if t.head? = some '/' then t.tail else t
  if t1.getLast? = some '/' then t1.dropLast else t1

/-- The `segments` array accumulated by the loop of `HttpClient.#pathname`:
`null`/`undefined` segments are skipped, number segments are pushed as
`String(segment)`, string segments are processed and pushed when the result
is non-empty. -/
def processedSegments : List PathSegment → List (List Char)
  | [] => []
  | .nullish :: rest => processedSegments rest
  | .num n :: rest => intToChars n :: processedSegments rest
  | .str s :: rest =>
    let p := processStringSegment s
    if p.length > 0 then p :: processedSegments rest else processedSegments rest

/-- JS `segments.join("/")`. -/
def joinSlash : List (List Char) → List Char
  | [] => []
  | [s] => s
  | s :: rest => s ++ '/' :: joinSlash rest

/-- `HttpClient.#pathname(path)` (src/index.ts lines 851-871). -/
def pathname (path : List PathSegment) : List Char :=
  joinSlash (processedSegments path)

/-- Whether a character list starts with two slashes. -/
def startsWithSlashSlash (t : List Char) : Bool :=
  match t with
  | a :: b :: _ => a == '/' && b == '/'
  | _ => false

/-- Whether a character list ends with two slashes. -/
def endsWithSlashSlash (t : List Char) : Bool :=
  startsWithSlashSlash t.reverse

/-! ## Claim-side delay formula (claim C2) -/

/-- The inter-attempt delay as worded by claim C2:
`clamp(retryDelay * 2^(k-1), 200, 10000)`, except when attempt `k`'s
response carries a `Retry-After` header whose integer-seconds value times
1000 exceeds the computed backoff, in which case that larger value (also
clamped to `[200, 10000]`) is awaited; a value that does not parse as an
integer is ignored. -/
def delaySpecC2 (retryDelay : Int) (k : Nat) (ra : Option String) : Int :=
  let base := retryDelay * (2 : Int) ^ (k - 1)
  let clamped := min 10000 (max 200 base)
  match ra with
  | some s =>
    if s ≠ "" then
      match jsParseInt s with
      | some v => if v * 1000 > base then min 10000 (max 200 (v * 1000)) else clamped
      | none => clamped
    else clamped
  | none => clamped

lemma computeBackoff_eq_delaySpecC2 (retryDelay : Int) (k : Nat) (ra : Option String) :
    computeBackoff retryDelay k ra = delaySpecC2 retryDelay k ra := by
  unfold computeBackoff delaySpecC2 MAX_RETRY_DELAY MIN_RETRY_DELAY
  rcases ra with _ | s
  · rfl
  · by_cases hs : s = ""
    · simp [hs]
    · simp only [hs, if_neg, ite_not, if_false, ne_eq, not_false_iff, if_true]
      rcases jsParseInt s with _ | v
      · rfl
      · simp only []
        rcases le_or_lt (v * 1000) (retryDelay * (2 : Int) ^ (k - 1)) with h | h
        · rw [max_eq_right h, if_neg (not_lt.mpr h)]
        · rw [max_eq_left h.le, if_pos h]

/-! ## Structural lemmas about `Builder.run` -/

namespace Builder

lemma run_rejected (method : String) (retry : Nat) (retryDelay : Int)
    (transport : Nat → FetchOutcome) (fuel a : Nat) (e : JsError)
    (h : transport a = .rejected e) :
    run method retry retryDelay transport fuel a
      = ([.signalCreated a, .requestCreated a, .beforeSendCalled a, .fetchCalled a],
         .error (handleError e)) := by
  cases fuel <;> simp [run, h]

lemma run_ok (method : String) (retry : Nat) (retryDelay : Int)
    (transport : Nat → FetchOutcome) (fuel a : Nat) (r : JsResponse)
    (h : transport a = .resolved r) (hok : r.ok = true) :
    run method retry retryDelay transport fuel a
      = ([.signalCreated a, .requestCreated a, .beforeSendCalled a, .fetchCalled a,
          .onResponseCalled a r.status], .ok r) := by
  cases fuel <;> simp [run, h, hok]

lemma run_server (method : String) (retry : Nat) (retryDelay : Int)
    (transport : Nat → FetchOutcome) (fuel a : Nat) (r : JsResponse)
    (h : transport a = .resolved r) (hok : r.ok = false)
    (hsr : shouldRetryRequest method r.status a retry = false) :
    run method retry retryDelay transport fuel a
      = ([.signalCreated a, .requestCreated a, .beforeSendCalled a, .fetchCalled a,
          .onResponseCalled a r.status], .error (.serverError r)) := by
  cases fuel <;> simp [run, h, hok, hsr]

lemma run_zero_server (method : String) (retry : Nat) (retryDelay : Int)
    (transport : Nat → FetchOutcome) (a : Nat) (r : JsResponse)
    (h : transport a = .resolved r) (hok : r.ok = false) :
    run method retry retryDelay transport 0 a
      = ([.signalCreated a, .requestCreated a, .beforeSendCalled a, .fetchCalled a,
          .onResponseCalled a r.status], .error (.serverError r)) := by
  simp [run, h, hok]

lemma run_retry (method : String) (retry : Nat) (retryDelay : Int)
    (transport : Nat → FetchOutcome) (fuel a : Nat) (r : JsResponse)
    (h : transport a = .resolved r) (hok : r.ok = false)
    (hsr : shouldRetryRequest method r.status a retry = true) :
    run method retry retryDelay transport (fuel + 1) a
      = ([.signalCreated a, .requestCreated a, .beforeSendCalled a, .fetchCalled a,
          .onResponseCalled a r.status]
          ++ .delayed a (computeBackoff retryDelay a r.retryAfter)
            :: (run method retry retryDelay transport fuel (a + 1)).1,
         (run method retry retryDelay transport fuel (a + 1)).2.mapError rewrapFailure) := by
  simp [run, h, hok, hsr]

lemma shouldRetry_lt (method : String) (status a retry : Nat)
    (hsr : shouldRetryRequest method status a retry = true) : a < retry := by
  simp only [shouldRetryRequest, Bool.and_eq_true, decide_eq_true_eq] at hsr
  exact hsr.1.1

lemma one_le_numCalls_run (method : String) (retry : Nat) (retryDelay : Int)
    (transport : Nat → FetchOutcome) (fuel a : Nat) :
    1 ≤ numCalls (run method retry retryDelay transport fuel a).1 := by
  cases htr : transport a with
  | rejected e =>
    rw [run_rejected method retry retryDelay transport fuel a e htr]
    simp [numCalls, isFetchEv]
  | resolved r =>
    cases hok : r.ok
    · cases fuel with
      | zero =>
        rw [run_zero_server method retry retryDelay transport a r htr hok]
        simp [numCalls, isFetchEv]
      | succ fuel =>
        cases hsr : shouldRetryRequest method r.status a retry
        · rw [run_server method retry retryDelay transport (fuel + 1) a r htr hok hsr]
          simp [numCalls, isFetchEv]
        · rw [run_retry method retry retryDelay transport fuel a r htr hok hsr]
          simp [numCalls, isFetchEv, List.countP_append, List.countP_cons]
    · rw [run_ok method retry retryDelay transport fuel a r htr hok]
      simp [numCalls, isFetchEv]

lemma numCalls_run_le (method : String) (retry : Nat) (retryDelay : Int)
    (transport : Nat → FetchOutcome) :
    ∀ fuel a, numCalls (run method retry retryDelay transport fuel a).1 ≤ retry - a + 1 := by
  intro fuel
  induction fuel with
  | zero =>
    intro a
    cases htr : transport a with
    | rejected e =>
      rw [run_rejected method retry retryDelay transport 0 a e htr]
      simp [numCalls, isFetchEv]
    | resolved r =>
      cases hok : r.ok
      · rw [run_zero_server method retry retryDelay transport a r htr hok]
        simp [numCalls, isFetchEv, List.countP_cons]
      · rw [run_ok method retry retryDelay transport 0 a r htr hok]
        simp [numCalls, isFetchEv, List.countP_cons]
  | succ fuel ih =>
    intro a
    cases htr : transport a with
    | rejected e =>
      rw [run_rejected method retry retryDelay transport (fuel + 1) a e htr]
      simp [numCalls, isFetchEv]
    | resolved r =>
      cases hok : r.ok
      · cases hsr : shouldRetryRequest method r.status a retry
        · rw [run_server method retry retryDelay transport (fuel + 1) a r htr hok hsr]
          simp [numCalls, isFetchEv, List.countP_cons]
        · have ha : a < retry := shouldRetry_lt method r.status a retry hsr
          have hle := ih (a + 1)
          rw [run_retry method retry retryDelay transport fuel a r htr hok hsr]
          simp [numCalls, isFetchEv, List.countP_append, List.countP_cons] at hle ⊢
          omega
      · rw [run_ok method retry retryDelay transport (fuel + 1) a r htr hok]
        simp [numCalls, isFetchEv, List.countP_cons]

lemma delaysOf_run (method : String) (retry : Nat) (retryDelay : Int)
    (transport : Nat → FetchOutcome) :
    ∀ fuel a,
      delaysOf (run method retry retryDelay transport fuel a).1
        = (List.range' a (numCalls (run method retry retryDelay transport fuel a).1 - 1)).map
            (fun k => computeBackoff retryDelay k (retryAfterAt transport k)) := by
  intro fuel
  induction fuel with
  | zero =>
    intro a
    cases htr : transport a with
    | rejected e =>
      rw [run_rejected method retry retryDelay transport 0 a e htr]
      simp [numCalls, delaysOf, isFetchEv]
    | resolved r =>
      cases hok : r.ok
      · rw [run_zero_server method retry retryDelay transport a r htr hok]
        simp [numCalls, delaysOf, isFetchEv, List.countP_cons]
      · rw [run_ok method retry retryDelay transport 0 a r htr hok]
        simp [numCalls, delaysOf, isFetchEv, List.countP_cons]
  | succ fuel ih =>
    intro a
    cases htr : transport a with
    | rejected e =>
      rw [run_rejected method retry retryDelay transport (fuel + 1) a e htr]
      simp [numCalls, delaysOf, isFetchEv]
    | resolved r =>
      cases hok : r.ok
      · cases hsr : shouldRetryRequest method r.status a retry
        · rw [run_server method retry retryDelay transport (fuel + 1) a r htr hok hsr]
          simp [numCalls, delaysOf, isFetchEv, List.countP_cons]
        · have hpos := one_le_numCalls_run method retry retryDelay transport fuel (a + 1)
          have hra : retryAfterAt transport a = r.retryAfter := by
            simp [retryAfterAt, htr]
          have hcount : numCalls (run method retry retryDelay transport (fuel + 1) a).1
              = numCalls (run method retry retryDelay transport fuel (a + 1)).1 + 1 := by
            rw [run_retry method retry retryDelay transport fuel a r htr hok hsr]
            simp [numCalls, isFetchEv, List.countP_append, List.countP_cons]
          have hdel : delaysOf (run method retry retryDelay transport (fuel + 1) a).1
              = computeBackoff retryDelay a r.retryAfter
                :: delaysOf (run method retry retryDelay transport fuel (a + 1)).1 := by
            rw [run_retry method retry retryDelay transport fuel a r htr hok hsr]
            simp [delaysOf, List.filterMap_append, List.filterMap_cons]
          rw [hdel, hcount, ih (a + 1), Nat.add_sub_cancel]
          obtain ⟨c', hc'⟩ :
              ∃ c', numCalls (run method retry retryDelay transport fuel (a + 1)).1
                = c' + 1 :=
            ⟨numCalls (run method retry retryDelay transport fuel (a + 1)).1 - 1, by omega⟩
          rw [hc', List.range'_succ]
          simp [hra]
      · rw [run_ok method retry retryDelay transport (fuel + 1) a r htr hok]
        simp [numCalls, delaysOf, isFetchEv, List.countP_cons]

lemma run_fuel_stable (method : String) (retry : Nat) (retryDelay : Int)
    (transport : Nat → FetchOutcome) :
    ∀ fuel a, retry ≤ fuel + a →
      run method retry retryDelay transport fuel a
        = run method retry retryDelay transport (fuel + 1) a := by
  intro fuel
  induction fuel with
  | zero =>
    intro a ha
    cases htr : transport a with
    | rejected e =>
      rw [run_rejected method retry retryDelay transport 0 a e htr,
        run_rejected method retry retryDelay transport 1 a e htr]
    | resolved r =>
      cases hok : r.ok
      · have hsr : shouldRetryRequest method r.status a retry = false := by
          simp only [shouldRetryRequest, Bool.and_eq_false_iff]
          left; left
          simp only [decide_eq_false_iff_not, not_lt]
          omega
        rw [run_zero_server method retry retryDelay transport a r htr hok,
          run_server method retry retryDelay transport 1 a r htr hok hsr]
      · rw [run_ok method retry retryDelay transport 0 a r htr hok,
          run_ok method retry retryDelay transport 1 a r htr hok]
  | succ fuel ih =>
    intro a ha
    cases htr : transport a with
    | rejected e =>
      rw [run_rejected method retry retryDelay transport (fuel + 1) a e htr,
        run_rejected method retry retryDelay transport (fuel + 2) a e htr]
    | resolved r =>
      cases hok : r.ok
      · cases hsr : shouldRetryRequest method r.status a retry
        · rw [run_server method retry retryDelay transport (fuel + 1) a r htr hok hsr,
            run_server method retry retryDelay transport (fuel + 2) a r htr hok hsr]
        · rw [run_retry method retry retryDelay transport fuel a r htr hok hsr,
            run_retry method retry retryDelay transport (fuel + 1) a r htr hok hsr,
            ih (a + 1) (by omega)]
      · rw [run_ok method retry retryDelay transport (fuel + 1) a r htr hok,
          run_ok method retry retryDelay transport (fuel + 2) a r htr hok]

end Builder


/-! ## Claim theorems -/

/-- Claim C1 is false on the code: with `retry = 2` and a transport that
rejects with a network-class cause (`TypeError "Failed to fetch."`) on
every attempt, `Builder.response` yields the `NetworkError` after exactly
one transport call, not after 2 attempts: the `catch` block of
`Builder.response` classifies and rethrows without ever retrying. -/
theorem claim_C1_counterexample :
    numCalls (Builder.response "GET" 2 500
      (fun _ => .rejected (.errObj "TypeError" "Failed to fetch."))).1 = 1 ∧
    (Builder.response "GET" 2 500
      (fun _ => .rejected (.errObj "TypeError" "Failed to fetch."))).2
      = .error (.networkError "Failed to fetch.") ∧ (1 : Nat) ≠ 2 :=
  ⟨by decide, by rfl, by decide⟩

/-- Claim C1 amended: when the transport call rejects on the current
attempt, `Builder.response`'s engine returns the failure classified by
`#handleError` immediately — no backoff, no attempt `n+1`, regardless of
the failure class and of how many attempts remain; in particular, with
`retry = 2` and a transport rejecting with a network-class cause on every
attempt, `execute` yields a `NetworkError` after 1 attempt.
Cancellation-class failures are (like every other rejection) never
retried. -/
theorem claim_C1_amended (method : String) (retry : Nat) (retryDelay : Int)
    (transport : Nat → FetchOutcome) (fuel a : Nat) (e : JsError)
    (h : transport a = .rejected e) :
    Builder.run method retry retryDelay transport fuel a
      = ([.signalCreated a, .requestCreated a, .beforeSendCalled a, .fetchCalled a],
         .error (handleError e)) :=
  Builder.run_rejected method retry retryDelay transport fuel a e h

/-- Witness for `claim_C1_amended`: the network-rejecting scenario of the
claim, at `retry = 2`, attempt 1. -/
theorem claim_C1_witness :
    Builder.run "GET" 2 500
      (fun _ => .rejected (.errObj "TypeError" "Failed to fetch.")) 2 1
      = ([.signalCreated 1, .requestCreated 1, .beforeSendCalled 1, .fetchCalled 1],
         .error (.networkError "Failed to fetch.")) :=
  claim_C1_amended "GET" 2 500
    (fun _ => .rejected (.errObj "TypeError" "Failed to fetch.")) 2 1
    (.errObj "TypeError" "Failed to fetch.") rfl

/-- Claim C2 is false at `maxAttempts = N = 0`: the engine still makes one
transport call (the first attempt is unconditional), which is not
`≤ 0`. -/
theorem claim_C2_counterexample :
    numCalls (Builder.response "GET" 0 500 (fun _ => .resolved ⟨503, none⟩)).1 = 1 ∧
    ¬ numCalls (Builder.response "GET" 0 500 (fun _ => .resolved ⟨503, none⟩)).1 ≤ 0 :=
  ⟨by decide, by decide⟩

/-- Claim C2 amended: for every execution the engine makes at most
`max N 1` transport calls (a single attempt is always issued, even when
`maxAttempts = 0`), and the delay awaited between transport call `k` and
call `k+1` equals `clamp(retryDelay * 2^(k-1), 200, 10000)`, except when
attempt `k`'s response carries a `Retry-After` header whose integer-seconds
value times 1000 exceeds the computed backoff, in which case that larger
value (also clamped to `[200, 10000]`) is awaited; a `Retry-After` value
that does not parse as an integer is ignored (`delaySpecC2`). -/
theorem claim_C2_amended (method : String) (retry : Nat) (retryDelay : Int)
    (transport : Nat → FetchOutcome) :
    numCalls (Builder.response method retry retryDelay transport).1 ≤ max retry 1 ∧
    delaysOf (Builder.response method retry retryDelay transport).1
      = (List.range' 1
          (numCalls (Builder.response method retry retryDelay transport).1 - 1)).map
          (fun k => delaySpecC2 retryDelay k (retryAfterAt transport k)) := by
  constructor
  · have := Builder.numCalls_run_le method retry retryDelay transport retry 1
    simp only [Builder.response]
    omega
  · have := Builder.delaysOf_run method retry retryDelay transport retry 1
    simp only [Builder.response, this]
    simp [computeBackoff_eq_delaySpecC2]

/-- Claim C3: for a completed but non-ok response, the engine retries if and
only if `shouldRetryRequest` holds, i.e. iff the method is `GET`, the status
is in the configured retryable set `{408, 409, 425, 429, 500, 502, 503, 504}`
and the current attempt is strictly below `maxAttempts`; a non-GET method is
never retried, and a non-retryable outcome returns a `ServerError` failure
wrapping the response. -/
theorem claim_C3 (method : String) (status : Nat) (currentAttempt maxAttempts : Nat)
    (retryDelay : Int) (transport : Nat → FetchOutcome) (fuel : Nat) (r : JsResponse)
    (hres : transport currentAttempt = .resolved r) (hok : r.ok = false) :
    (shouldRetryRequest method status currentAttempt maxAttempts = true ↔
      (method = "GET"
        ∧ status ∈ ([408, 409, 425, 429, 500, 502, 503, 504] : List Nat)
        ∧ currentAttempt < maxAttempts)) ∧
    (method ≠ "GET" → shouldRetryRequest method status currentAttempt maxAttempts = false) ∧
    (shouldRetryRequest method r.status currentAttempt maxAttempts = false →
      Builder.run method maxAttempts retryDelay transport fuel currentAttempt
        = ([.signalCreated currentAttempt, .requestCreated currentAttempt,
            .beforeSendCalled currentAttempt, .fetchCalled currentAttempt,
            .onResponseCalled currentAttempt r.status],
           .error (.serverError r))) := by
  refine ⟨?_, ?_, ?_⟩
  · simp only [shouldRetryRequest, RETRY_CODE_LIST, Bool.and_eq_true, decide_eq_true_eq,
      beq_iff_eq]
    simp only [List.contains_eq_any_beq, List.any_cons, List.any_nil,
      Bool.or_eq_true, beq_iff_eq, List.mem_cons, List.not_mem_nil, or_false]
    tauto
  · intro hm
    simp only [shouldRetryRequest, Bool.and_eq_false_iff]
    left; right
    simpa using hm
  · intro hsr
    exact Builder.run_server method maxAttempts retryDelay transport fuel currentAttempt
      r hres hok hsr

/-- Witness for `claim_C3`: a POST receiving a retryable 503 at attempt 1 of
5 is not retried and yields a `ServerError` wrapping the response. -/
theorem claim_C3_witness :
    (shouldRetryRequest "POST" 503 1 5 = true ↔
      ("POST" = "GET"
        ∧ 503 ∈ ([408, 409, 425, 429, 500, 502, 503, 504] : List Nat)
        ∧ 1 < 5)) ∧
    ("POST" ≠ "GET" → shouldRetryRequest "POST" 503 1 5 = false) ∧
    (shouldRetryRequest "POST" 503 1 5 = false →
      Builder.run "POST" 5 500 (fun _ => .resolved ⟨503, none⟩) 5 1
        = ([.signalCreated 1, .requestCreated 1, .beforeSendCalled 1, .fetchCalled 1,
            .onResponseCalled 1 503],
           .error (.serverError ⟨503, none⟩))) :=
  claim_C3 "POST" 503 1 5 500 (fun _ => .resolved ⟨503, none⟩) 5 ⟨503, none⟩ rfl rfl

/-- Claim C6 is false on the code: in the scenario
`{timeoutMillis: 5000, retry: 3, retryDelay: 100}`, GET, 503 on attempts
1-2 and 200 on attempt 3, the two awaited delays are 200ms and 200ms —
not ~100ms and ~200ms — because the computed 100ms backoff of attempt 1 is
clamped up to `MIN_RETRY_DELAY = 200`. -/
theorem claim_C6_counterexample :
    delaysOf (Builder.response "GET" 3 100
      (fun k => if k ≤ 2 then .resolved ⟨503, none⟩ else .resolved ⟨200, none⟩)).1
      = [200, 200] ∧
    ([200, 200] : List Int) ≠ [100, 200] :=
  ⟨by decide, by decide⟩

/-- Claim C6 amended: in the scenario `{retry: 3, retryDelay: 100}`, GET,
503 on attempts 1-2 and 200 on attempt 3, `execute` resolves with the 200
response after exactly three transport calls and two inter-attempt delays of
200ms each (`clamp(100·2⁰) = 200` by the minimum clamp, `clamp(100·2¹) =
200`). -/
theorem claim_C6_amended :
    (Builder.response "GET" 3 100
      (fun k => if k ≤ 2 then .resolved ⟨503, none⟩ else .resolved ⟨200, none⟩)).2
      = .ok ⟨200, none⟩ ∧
    numCalls (Builder.response "GET" 3 100
      (fun k => if k ≤ 2 then .resolved ⟨503, none⟩ else .resolved ⟨200, none⟩)).1 = 3 ∧
    delaysOf (Builder.response "GET" 3 100
      (fun k => if k ≤ 2 then .resolved ⟨503, none⟩ else .resolved ⟨200, none⟩)).1
      = [200, 200] :=
  ⟨by rfl, by decide, by decide⟩

/-- Claim C7: executing with `maxAttempts = 0` and with `maxAttempts = 1`
produce identical outcomes for every method, every retry delay and every
transport behaviour: the full observable result (trace and outcome) is
equal, exactly one transport call is made, and no backoff delay is
awaited. -/
theorem claim_C7 (method : String) (retryDelay : Int) (transport : Nat → FetchOutcome) :
    Builder.response method 0 retryDelay transport
      = Builder.response method 1 retryDelay transport ∧
    numCalls (Builder.response method 0 retryDelay transport).1 = 1 ∧
    delaysOf (Builder.response method 0 retryDelay transport).1 = [] := by
  have h01 : Builder.response method 0 retryDelay transport
      = Builder.response method 1 retryDelay transport := by
    simp only [Builder.response]
    cases htr : transport 1 with
    | rejected e =>
      rw [Builder.run_rejected method 0 retryDelay transport 0 1 e htr,
        Builder.run_rejected method 1 retryDelay transport 1 1 e htr]
    | resolved r =>
      cases hok : r.ok
      · have hsr : shouldRetryRequest method r.status 1 1 = false := by
          simp [shouldRetryRequest]
        rw [Builder.run_zero_server method 0 retryDelay transport 1 r htr hok,
          Builder.run_server method 1 retryDelay transport 1 1 r htr hok hsr]
      · rw [Builder.run_ok method 0 retryDelay transport 0 1 r htr hok,
          Builder.run_ok method 1 retryDelay transport 1 1 r htr hok]
  refine ⟨h01, ?_, ?_⟩
  · simp only [Builder.response]
    cases htr : transport 1 with
    | rejected e =>
      rw [Builder.run_rejected method 0 retryDelay transport 0 1 e htr]
      simp [numCalls, isFetchEv]
    | resolved r =>
      cases hok : r.ok
      · rw [Builder.run_zero_server method 0 retryDelay transport 1 r htr hok]
        simp [numCalls, isFetchEv, List.countP_cons]
      · rw [Builder.run_ok method 0 retryDelay transport 0 1 r htr hok]
        simp [numCalls, isFetchEv, List.countP_cons]
  · simp only [Builder.response]
    cases htr : transport 1 with
    | rejected e =>
      rw [Builder.run_rejected method 0 retryDelay transport 0 1 e htr]
      simp [delaysOf]
    | resolved r =>
      cases hok : r.ok
      · rw [Builder.run_zero_server method 0 retryDelay transport 1 r htr hok]
        simp [delaysOf]
      · rw [Builder.run_ok method 0 retryDelay transport 0 1 r htr hok]
        simp [delaysOf]


/-- Claim C4 is false on the code: composing an already-fired timeout signal
with an unfired user signal does fire the output synchronously, but the
recorded reason is a fresh generic `"AbortError"` (not the source's reason —
`mergeAbortSignals` calls `controller.abort()` with no argument), and an
abort listener IS registered on the unfired user signal by the composition
(the cleanup listener, attached to the already-aborted output signal, never
fires to remove it). -/
theorem claim_C4_counterexample :
    (mergeAbortSignals (some .timeoutErr) (some none)).outAborted = true ∧
    (mergeAbortSignals (some .timeoutErr) (some none)).outReason
      ≠ some .timeoutErr ∧
    (mergeAbortSignals (some .timeoutErr) (some none)).uListener = true :=
  ⟨rfl, by decide, rfl⟩

/-- Claim C4 amended: whenever some input signal is already fired at
composition time, the output signal is fired synchronously when
`mergeAbortSignals` returns, but its recorded reason is a fresh generic
`"AbortError"` rather than that source's abort reason, and the composition
registers an abort listener on exactly the unfired sources (one on the
timeout signal iff it is unfired, one on the user signal iff it is supplied
and unfired); the cleanup listener is attached to the already-aborted output
signal and can never fire, so those listeners stay registered. -/
theorem claim_C4_amended (t : Option Reason) (u : Option (Option Reason))
    (h : t.isSome = true ∨ ∃ r, u = some (some r)) :
    (mergeAbortSignals t u).outAborted = true ∧
    (mergeAbortSignals t u).outReason = some .genericAbortError ∧
    ((mergeAbortSignals t u).tListener = true ↔ t = none) ∧
    ((mergeAbortSignals t u).uListener = true ↔ u = some none) ∧
    (mergeAbortSignals t u).cleanupArmed = false := by
  rcases t with _ | rt <;> rcases u with _ | (_ | ru) <;>
    simp_all [mergeAbortSignals]

/-- Witness for `claim_C4_amended`: timeout signal already fired (with the
`"TimeoutError"` reason of `AbortSignal.timeout`), unfired user signal
supplied. -/
theorem claim_C4_witness :
    (mergeAbortSignals (some .timeoutErr) (some none)).outAborted = true ∧
    (mergeAbortSignals (some .timeoutErr) (some none)).outReason
      = some .genericAbortError ∧
    ((mergeAbortSignals (some .timeoutErr) (some none)).tListener = true
      ↔ (some Reason.timeoutErr : Option Reason) = none) ∧
    ((mergeAbortSignals (some .timeoutErr) (some none)).uListener = true
      ↔ (some (none : Option Reason) : Option (Option Reason)) = some none) ∧
    (mergeAbortSignals (some .timeoutErr) (some none)).cleanupArmed = false :=
  claim_C4_amended (some .timeoutErr) (some none) (Or.inl rfl)

/-- Claim C5 is false on the code: compose an unfired timeout signal with an
unfired user signal, then fire the timeout source with reason
`Reason.host 0`: the output fires, but its recorded reason is the generic
`"AbortError"`, not the source's reason — `onAbort` is
`() => controller.abort()` and drops the reason. -/
theorem claim_C5_counterexample :
    (fireTimeoutSignal (.host 0) (mergeAbortSignals none (some none))).outAborted
      = true ∧
    (fireTimeoutSignal (.host 0) (mergeAbortSignals none (some none))).outReason
      ≠ some (.host 0) :=
  ⟨rfl, by decide⟩

/-- Claim C5 amended: for a composition over sources that are all unfired at
composition time, when the first source fires (with any reason `r`), the
output signal fires — with the fresh generic `"AbortError"` reason rather
than the source's reason — and afterwards no abort listener registered by
the composition remains attached to any source signal: the cleanup handler
detaches `onAbort` from every source, not just the one that fired.  This
holds when the timeout source fires first (with or without a user signal
supplied) and when the user source fires first. -/
theorem claim_C5_amended (r : Reason) (hasUser : Bool) :
    fireTimeoutSignal r
        (mergeAbortSignals none (if hasUser then some none else none))
      = ⟨true, some .genericAbortError, false, false, false⟩ ∧
    fireUserSignal r (mergeAbortSignals none (some none))
      = ⟨true, some .genericAbortError, false, false, false⟩ := by
  cases hasUser <;> exact ⟨rfl, rfl⟩

/-- `tryRequest` produces a single transport call and no delay whenever the
outcome of the attempt is not a retryable-class thrown value (resolved
responses — of any status — and non-retryable thrown values never lead to a
second call). -/
lemma tryRequest_single_call (retries : Nat) (retryDelay : Int)
    (transport : Nat → TryOutcome) (fuel a : Nat)
    (h : ∀ e, transport a = .rejectedT e → tryRetryClass e = false) :
    (tryRequest retries retryDelay transport fuel a).1 = [.fetchCalled a] := by
  cases htr : transport a with
  | resolved r =>
    by_cases hok : r.ok = true
    · cases fuel <;> simp [tryRequest, htr, hok]
    · cases fuel <;> simp [tryRequest, htr, hok]
  | rejectedT e =>
    have hcls := h e htr
    cases e with
    | thrownString s =>
      simp only [tryRetryClass] at hcls
      cases fuel <;> simp [tryRequest, htr, hcls]
    | domException name msg =>
      by_cases hn : name = "AbortError"
      · cases fuel <;> simp [tryRequest, htr, hn]
      · cases fuel <;> simp [tryRequest, htr, hn]
    | typeErrorThrown msg =>
      simp only [tryRetryClass] at hcls
      cases fuel <;> simp [tryRequest, htr, hcls]
    | otherThrown => cases fuel <;> simp [tryRequest, htr]

/-- Claim C10: in the `tryRequest` variant, a completed transport response
with `response.ok` false is returned as a `SERVER_ERROR` failure carrying
that response immediately — one transport call, no delay, no retry —
regardless of the `retries` and `retryDelay` settings; and an attempt whose
outcome is not a thrown timeout-message string or a
`TypeError "Failed to fetch."` never leads to a second transport call, so
only those two exception classes are ever retried. -/
theorem claim_C10 (retries : Nat) (retryDelay : Int) (transport : Nat → TryOutcome)
    (fuel a fuel' a' : Nat) (r : JsResponse)
    (hres : transport a = .resolved r) (hok : r.ok = false)
    (hnr : ∀ e, transport a' = .rejectedT e → tryRetryClass e = false) :
    tryRequest retries retryDelay transport fuel a
      = ([.fetchCalled a], .error (.serverErrorV1 r)) ∧
    (tryRequest retries retryDelay transport fuel' a').1 = [.fetchCalled a'] := by
  constructor
  · cases fuel <;> simp [tryRequest, hres, hok]
  · exact tryRequest_single_call retries retryDelay transport fuel' a' hnr

/-- Witness for `claim_C10`: a transport that always resolves with a 503;
with `retries = 5` the result is an immediate `SERVER_ERROR` and a single
call. -/
theorem claim_C10_witness :
    tryRequest 5 1000 (fun _ => .resolved ⟨503, none⟩) 5 1
      = ([.fetchCalled 1], .error (.serverErrorV1 ⟨503, none⟩)) ∧
    (tryRequest 5 1000 (fun _ => .resolved ⟨503, none⟩) 5 1).1 = [.fetchCalled 1] :=
  claim_C10 5 1000 (fun _ => .resolved ⟨503, none⟩) 5 1 5 1 ⟨503, none⟩ rfl rfl
    (fun e he => by simp at he)

/-! ## Lemmas for `HttpClient.#pathname` (claim C8) -/

lemma digitChar_isDigit (d : Nat) : (digitChar d).isDigit = true := by
  unfold digitChar
  split <;> decide

lemma natChars_all_digits :
    ∀ fuel n, ∀ c ∈ natChars fuel n, c.isDigit = true := by
  intro fuel
  induction fuel with
  | zero => intro n c hc; simp [natChars] at hc
  | succ fuel ih =>
    intro n c hc
    by_cases hn : n < 10
    · simp only [natChars, if_pos hn, List.mem_singleton] at hc
      subst hc
      exact digitChar_isDigit n
    · simp only [natChars, if_neg hn, List.mem_append, List.mem_singleton] at hc
      rcases hc with hc | hc
      · exact ih _ c hc
      · subst hc; exact digitChar_isDigit _

lemma natChars_ne_nil (fuel n : Nat) (hf : 1 ≤ fuel) : natChars fuel n ≠ [] := by
  match fuel, hf with
  | fuel + 1, _ =>
    by_cases hn : n < 10 <;> simp [natChars, hn]

lemma isDigit_ne_slash {c : Char} (h : c.isDigit = true) : c ≠ '/' := by
  intro hc
  subst hc
  exact absurd h (by decide)

lemma getLast?_mem_chars :
    ∀ (l : List Char) (c : Char), l.getLast? = some c → c ∈ l := by
  intro l
  induction l with
  | nil => intro c hc; simp at hc
  | cons a rest ih =>
    intro c hc
    cases rest with
    | nil =>
      simp only [List.getLast?_singleton, Option.some.injEq] at hc
      simp [hc]
    | cons b rest' =>
      rw [List.getLast?_cons_cons] at hc
      exact List.mem_cons_of_mem a (ih c hc)

lemma intToChars_ne_nil (n : Int) : intToChars n ≠ [] := by
  unfold intToChars
  by_cases hn : n < 0
  · simp [hn]
  · simp only [hn, if_false]
    exact natChars_ne_nil (n.natAbs + 1) n.natAbs (by omega)

lemma intToChars_head (n : Int) : (intToChars n).head? ≠ some '/' := by
  unfold intToChars
  by_cases hn : n < 0
  · simp [hn]
  · simp only [hn, if_false]
    cases hl : natChars (n.natAbs + 1) n.natAbs with
    | nil => exact absurd hl (natChars_ne_nil _ _ (by omega))
    | cons c rest =>
      have hc : c.isDigit = true :=
        natChars_all_digits _ _ c (hl ▸ List.mem_cons_self c rest)
      simpa using isDigit_ne_slash hc

lemma intToChars_getLast (n : Int) : (intToChars n).getLast? ≠ some '/' := by
  intro h
  have hmem : '/' ∈ intToChars n := getLast?_mem_chars _ _ h
  unfold intToChars at hmem
  by_cases hn : n < 0
  · simp only [hn, if_true, List.mem_cons] at hmem
    rcases hmem with hm | hm
    · exact absurd hm (by decide)
    · exact isDigit_ne_slash (natChars_all_digits _ _ _ hm) rfl
  · simp only [hn, if_false] at hmem
    exact isDigit_ne_slash (natChars_all_digits _ _ _ hmem) rfl

lemma startsWithSlashSlash_iff (l : List Char) :
    startsWithSlashSlash l = true ↔ ∃ w, l = '/' :: '/' :: w := by
  cases l with
  | nil => simp [startsWithSlashSlash]
  | cons a rest =>
    cases rest with
    | nil => simp [startsWithSlashSlash]
    | cons b w =>
      simp only [startsWithSlashSlash, Bool.and_eq_true, beq_iff_eq, List.cons.injEq]
      constructor
      · rintro ⟨ha, hb⟩
        exact ⟨w, ha, hb, rfl⟩
      · rintro ⟨w', ha, hb, hw⟩
        exact ⟨ha, hb⟩

lemma endsWith_tail (t : List Char) (h : endsWithSlashSlash t = false) :
    endsWithSlashSlash t.tail = false := by
  cases t with
  | nil => exact h
  | cons a rest =>
    simp only [List.tail_cons]
    cases hb : endsWithSlashSlash rest with
    | false => rfl
    | true =>
      exfalso
      unfold endsWithSlashSlash at hb h
      rw [startsWithSlashSlash_iff] at hb
      rcases hb with ⟨w, hw⟩
      have hrev : (a :: rest).reverse = '/' :: '/' :: (w ++ [a]) := by
        rw [List.reverse_cons, hw]
        rfl
      rw [hrev] at h
      rw [show startsWithSlashSlash ('/' :: '/' :: (w ++ [a])) = true by
        simp [startsWithSlashSlash]] at h
      exact Bool.noConfusion h

lemma front_strip (t : List Char) (h : startsWithSlashSlash t = false) :
    (if t.head? = some '/' then t.tail else t).head? ≠ some '/' := by
  cases t with
  | nil => simp
  | cons a rest =>
    by_cases ha : a = '/'
    · subst ha
      simp only [List.head?_cons, if_pos rfl, List.tail_cons]
      cases rest with
      | nil => simp
      | cons b rest' =>
        have hb : ¬ b = '/' := by
          simpa [startsWithSlashSlash] using h
        simp [hb]
    · simp [ha]

lemma back_strip (l : List Char) (h : endsWithSlashSlash l = false) :
    (if l.getLast? = some '/' then l.dropLast else l).getLast? ≠ some '/' := by
  have hfront := front_strip l.reverse h
  rw [apply_ite List.head?, List.head?_reverse, List.tail_reverse,
    List.head?_reverse] at hfront
  rwa [apply_ite List.getLast?]

lemma head?_dropLast_of_ne_nil (l : List Char) (h : l.dropLast ≠ []) :
    l.dropLast.head? = l.head? := by
  cases l with
  | nil => simp at h
  | cons a rest =>
    cases rest with
    | nil => simp at h
    | cons b rest' => simp [List.dropLast]

lemma processStringSegment_props (s : List Char)
    (h1 : startsWithSlashSlash (jsTrim s) = false)
    (h2 : endsWithSlashSlash (jsTrim s) = false)
    (hne : processStringSegment s ≠ []) :
    (processStringSegment s).head? ≠ some '/' ∧
    (processStringSegment s).getLast? ≠ some '/' := by
  unfold processStringSegment at hne ⊢
  constructor
  · have hh := front_strip (jsTrim s) h1
    by_cases hl :
        (if (jsTrim s).head? = some '/' then (jsTrim s).tail else jsTrim s).getLast?
          = some '/'
    · rw [if_pos hl] at hne ⊢
      rw [head?_dropLast_of_ne_nil _ hne]
      exact hh
    · rw [if_neg hl] at hne ⊢
      exact hh
  · have ht1 :
        endsWithSlashSlash
          (if (jsTrim s).head? = some '/' then (jsTrim s).tail else jsTrim s) = false := by
      by_cases hc : (jsTrim s).head? = some '/'
      · rw [if_pos hc]
        exact endsWith_tail (jsTrim s) h2
      · rw [if_neg hc]
        exact h2
    exact back_strip _ ht1

lemma processedSegments_props (path : List PathSegment)
    (h : ∀ s, PathSegment.str s ∈ path →
      startsWithSlashSlash (jsTrim s) = false ∧ endsWithSlashSlash (jsTrim s) = false) :
    ∀ p ∈ processedSegments path,
      p ≠ [] ∧ p.head? ≠ some '/' ∧ p.getLast? ≠ some '/' := by
  induction path with
  | nil => intro p hp; simp [processedSegments] at hp
  | cons seg rest ih =>
    intro p hp
    have hrest : ∀ s, PathSegment.str s ∈ rest →
        startsWithSlashSlash (jsTrim s) = false
          ∧ endsWithSlashSlash (jsTrim s) = false :=
      fun s hs => h s (List.mem_cons_of_mem _ hs)
    cases seg with
    | nullish =>
      simp only [processedSegments] at hp
      exact ih hrest p hp
    | num n =>
      simp only [processedSegments, List.mem_cons] at hp
      rcases hp with hp | hp
      · subst hp
        exact ⟨intToChars_ne_nil n, intToChars_head n, intToChars_getLast n⟩
      · exact ih hrest p hp
    | str s =>
      have hs := h s (List.mem_cons_self _ _)
      simp only [processedSegments] at hp
      by_cases hlen : (processStringSegment s).length > 0
      · rw [if_pos hlen] at hp
        rcases List.mem_cons.mp hp with hp | hp
        · subst hp
          have hne : processStringSegment s ≠ [] := by
            intro hnil
            rw [hnil] at hlen
            simp at hlen
          obtain ⟨hh, hl⟩ := processStringSegment_props s hs.1 hs.2 hne
          exact ⟨hne, hh, hl⟩
        · exact ih hrest p hp
      · rw [if_neg hlen] at hp
        exact ih hrest p hp

lemma joinSlash_head_cons (s : List Char) (rest : List (List Char)) (hs : s ≠ []) :
    (joinSlash (s :: rest)).head? = s.head? := by
  cases rest with
  | nil => rfl
  | cons r rest' =>
    cases s with
    | nil => exact absurd rfl hs
    | cons a as => rfl

/-- Claim C8 is false on the code: the string segment `"//a"` loses only one
leading slash, so `#pathname(["//a"])` is `"/a"`, whose first character is
`'/'` — the produced pathname can begin with `'/'`. -/
theorem claim_C8_counterexample :
    pathname [.str ['/', '/', 'a']] = ['/', 'a'] ∧
    (pathname [.str ['/', '/', 'a']]).head? = some '/' :=
  ⟨by decide, by decide⟩

/-- Claim C8 amended: the client builds the URL path by stringifying number
segments unchanged, skipping null/undefined segments, trimming whitespace
from string segments, removing at most one leading and at most one trailing
`'/'`, dropping segments that become empty, and joining the survivors with
`'/'` (this is the definition of `pathname`); every surviving segment is
non-empty, and — provided no trimmed string segment starts or ends with a
double slash — no surviving segment starts or ends with `'/'` (so the join
introduces no empty segment at segment boundaries) and the produced pathname
does not begin with `'/'`. -/
theorem claim_C8_amended (path : List PathSegment)
    (h : ∀ s, PathSegment.str s ∈ path →
      startsWithSlashSlash (jsTrim s) = false ∧ endsWithSlashSlash (jsTrim s) = false) :
    (∀ p ∈ processedSegments path,
      p ≠ [] ∧ p.head? ≠ some '/' ∧ p.getLast? ≠ some '/') ∧
    pathname path = joinSlash (processedSegments path) ∧
    (pathname path).head? ≠ some '/' := by
  have hsegs := processedSegments_props path h
  refine ⟨hsegs, rfl, ?_⟩
  unfold pathname
  rcases hps : processedSegments path with _ | ⟨p, rest⟩
  · simp [joinSlash]
  · have hp := hsegs p (hps ▸ List.mem_cons_self p rest)
    rw [joinSlash_head_cons p rest hp.1]
    exact hp.2.1

/-- Witness for `claim_C8_amended`: the path `[" /users/ ", -5, null]`. -/
theorem claim_C8_witness :
    (∀ p ∈ processedSegments [.str (' ' :: '/' :: 'u' :: '/' :: []), .num (-5), .nullish],
      p ≠ [] ∧ p.head? ≠ some '/' ∧ p.getLast? ≠ some '/') ∧
    pathname [.str (' ' :: '/' :: 'u' :: '/' :: []), .num (-5), .nullish]
      = joinSlash (processedSegments
          [.str (' ' :: '/' :: 'u' :: '/' :: []), .num (-5), .nullish]) ∧
    (pathname [.str (' ' :: '/' :: 'u' :: '/' :: []), .num (-5), .nullish]).head?
      ≠ some '/' :=
  claim_C8_amended [.str (' ' :: '/' :: 'u' :: '/' :: []), .num (-5), .nullish]
    (by
      intro s hs
      simp only [List.mem_cons, List.not_mem_nil, or_false] at hs
      rcases hs with hs | hs | hs
      · cases hs
        exact ⟨by decide, by decide⟩
      · cases hs
      · cases hs)

/-! ## Per-attempt hook events (claim C9) -/

/-- The events of attempt `k` as worded by claim C9: a fresh merged signal,
a fresh `Request`, the awaited `beforeSend` invocation, then the transport
call; when the transport resolves, the `onResponse` invocation with that
attempt's response, before any retry decision; when the attempt is retried
(`retried = true`), the awaited backoff delay last. -/
def attemptBlock (transport : Nat → FetchOutcome) (retryDelay : Int)
    (k : Nat) (retried : Bool) : List Ev :=
  [.signalCreated k, .requestCreated k, .beforeSendCalled k, .fetchCalled k]
  ++ (match transport k with
      | .resolved r => [.onResponseCalled k r.status]
      | .rejected _ => [])
  ++ (if retried then
        [.delayed k (computeBackoff retryDelay k (retryAfterAt transport k))]
      else [])

namespace Builder

lemma numCalls_run_retry (method : String) (retry : Nat) (retryDelay : Int)
    (transport : Nat → FetchOutcome) (fuel a : Nat) (r : JsResponse)
    (htr : transport a = .resolved r) (hok : r.ok = false)
    (hsr : shouldRetryRequest method r.status a retry = true) :
    numCalls (run method retry retryDelay transport (fuel + 1) a).1
      = numCalls (run method retry retryDelay transport fuel (a + 1)).1 + 1 := by
  rw [run_retry method retry retryDelay transport fuel a r htr hok hsr]
  simp [numCalls, isFetchEv, List.countP_append, List.countP_cons]

lemma run_attemptOf_lb (method : String) (retry : Nat) (retryDelay : Int)
    (transport : Nat → FetchOutcome) :
    ∀ fuel a, ∀ e ∈ (run method retry retryDelay transport fuel a).1,
      a ≤ e.attemptOf := by
  intro fuel
  induction fuel with
  | zero =>
    intro a e he
    cases htr : transport a with
    | rejected er =>
      rw [run_rejected method retry retryDelay transport 0 a er htr] at he
      simp only [List.mem_cons, List.not_mem_nil, or_false] at he
      rcases he with rfl | rfl | rfl | rfl <;> simp [Ev.attemptOf]
    | resolved r =>
      cases hok : r.ok
      · rw [run_zero_server method retry retryDelay transport a r htr hok] at he
        simp only [List.mem_cons, List.not_mem_nil, or_false] at he
        rcases he with rfl | rfl | rfl | rfl | rfl <;> simp [Ev.attemptOf]
      · rw [run_ok method retry retryDelay transport 0 a r htr hok] at he
        simp only [List.mem_cons, List.not_mem_nil, or_false] at he
        rcases he with rfl | rfl | rfl | rfl | rfl <;> simp [Ev.attemptOf]
  | succ fuel ih =>
    intro a e he
    cases htr : transport a with
    | rejected er =>
      rw [run_rejected method retry retryDelay transport (fuel + 1) a er htr] at he
      simp only [List.mem_cons, List.not_mem_nil, or_false] at he
      rcases he with rfl | rfl | rfl | rfl <;> simp [Ev.attemptOf]
    | resolved r =>
      cases hok : r.ok
      · cases hsr : shouldRetryRequest method r.status a retry
        · rw [run_server method retry retryDelay transport (fuel + 1) a r htr hok hsr]
            at he
          simp only [List.mem_cons, List.not_mem_nil, or_false] at he
          rcases he with rfl | rfl | rfl | rfl | rfl <;> simp [Ev.attemptOf]
        · rw [run_retry method retry retryDelay transport fuel a r htr hok hsr] at he
          simp only [List.mem_append, List.mem_cons, List.not_mem_nil, or_false] at he
          rcases he with (rfl | rfl | rfl | rfl | rfl) | rfl | he
          · simp [Ev.attemptOf]
          · simp [Ev.attemptOf]
          · simp [Ev.attemptOf]
          · simp [Ev.attemptOf]
          · simp [Ev.attemptOf]
          · simp [Ev.attemptOf]
          · have := ih (a + 1) e he
            omega
      · rw [run_ok method retry retryDelay transport (fuel + 1) a r htr hok] at he
        simp only [List.mem_cons, List.not_mem_nil, or_false] at he
        rcases he with rfl | rfl | rfl | rfl | rfl <;> simp [Ev.attemptOf]

lemma countP_beforeSend_run (method : String) (retry : Nat) (retryDelay : Int)
    (transport : Nat → FetchOutcome) :
    ∀ fuel a, List.countP isBeforeSendEv (run method retry retryDelay transport fuel a).1
      = numCalls (run method retry retryDelay transport fuel a).1 := by
  intro fuel
  induction fuel with
  | zero =>
    intro a
    cases htr : transport a with
    | rejected er =>
      rw [run_rejected method retry retryDelay transport 0 a er htr]
      simp [numCalls, isFetchEv, isBeforeSendEv, List.countP_cons]
    | resolved r =>
      cases hok : r.ok
      · rw [run_zero_server method retry retryDelay transport a r htr hok]
        simp [numCalls, isFetchEv, isBeforeSendEv, List.countP_cons]
      · rw [run_ok method retry retryDelay transport 0 a r htr hok]
        simp [numCalls, isFetchEv, isBeforeSendEv, List.countP_cons]
  | succ fuel ih =>
    intro a
    cases htr : transport a with
    | rejected er =>
      rw [run_rejected method retry retryDelay transport (fuel + 1) a er htr]
      simp [numCalls, isFetchEv, isBeforeSendEv, List.countP_cons]
    | resolved r =>
      cases hok : r.ok
      · cases hsr : shouldRetryRequest method r.status a retry
        · rw [run_server method retry retryDelay transport (fuel + 1) a r htr hok hsr]
          simp [numCalls, isFetchEv, isBeforeSendEv, List.countP_cons]
        · rw [run_retry method retry retryDelay transport fuel a r htr hok hsr]
          have := ih (a + 1)
          simp only [numCalls, isFetchEv, isBeforeSendEv, List.countP_append,
            List.countP_cons, List.countP_nil] at this ⊢
          omega
      · rw [run_ok method retry retryDelay transport (fuel + 1) a r htr hok]
        simp [numCalls, isFetchEv, isBeforeSendEv, List.countP_cons]

lemma run_attemptEvents (method : String) (retry : Nat) (retryDelay : Int)
    (transport : Nat → FetchOutcome) :
    ∀ fuel a k, a ≤ k →
      k < a + numCalls (run method retry retryDelay transport fuel a).1 →
      attemptEvents k (run method retry retryDelay transport fuel a).1
        = attemptBlock transport retryDelay k
            (decide
              (k + 1 < a + numCalls (run method retry retryDelay transport fuel a).1)) := by
  intro fuel
  induction fuel with
  | zero =>
    intro a k hak hk
    cases htr : transport a with
    | rejected er =>
      rw [run_rejected method retry retryDelay transport 0 a er htr] at hk ⊢
      have hka : k = a := by
        simp [numCalls, isFetchEv, List.countP_cons] at hk
        omega
      subst hka
      simp [attemptEvents, attemptBlock, Ev.attemptOf, htr, numCalls, isFetchEv,
        List.countP_cons, List.filter]
    | resolved r =>
      cases hok : r.ok
      · rw [run_zero_server method retry retryDelay transport a r htr hok] at hk ⊢
        have hka : k = a := by
          simp [numCalls, isFetchEv, List.countP_cons] at hk
          omega
        subst hka
        simp [attemptEvents, attemptBlock, Ev.attemptOf, htr, numCalls, isFetchEv,
          List.countP_cons, List.filter]
      · rw [run_ok method retry retryDelay transport 0 a r htr hok] at hk ⊢
        have hka : k = a := by
          simp [numCalls, isFetchEv, List.countP_cons] at hk
          omega
        subst hka
        simp [attemptEvents, attemptBlock, Ev.attemptOf, htr, numCalls, isFetchEv,
          List.countP_cons, List.filter]
  | succ fuel ih =>
    intro a k hak hk
    cases htr : transport a with
    | rejected er =>
      rw [run_rejected method retry retryDelay transport (fuel + 1) a er htr] at hk ⊢
      have hka : k = a := by
        simp [numCalls, isFetchEv, List.countP_cons] at hk
        omega
      subst hka
      simp [attemptEvents, attemptBlock, Ev.attemptOf, htr, numCalls, isFetchEv,
        List.countP_cons, List.filter]
    | resolved r =>
      cases hok : r.ok
      · cases hsr : shouldRetryRequest method r.status a retry
        · rw [run_server method retry retryDelay transport (fuel + 1) a r htr hok hsr]
            at hk ⊢
          have hka : k = a := by
            simp [numCalls, isFetchEv, List.countP_cons] at hk
            omega
          subst hka
          simp [attemptEvents, attemptBlock, Ev.attemptOf, htr, numCalls, isFetchEv,
            List.countP_cons, List.filter]
        · have hcount := numCalls_run_retry method retry retryDelay transport fuel a r
            htr hok hsr
          have hpos := one_le_numCalls_run method retry retryDelay transport fuel (a + 1)
          have hra : retryAfterAt transport a = r.retryAfter := by
            simp [retryAfterAt, htr]
          rw [hcount] at hk
          rw [hcount, run_retry method retry retryDelay transport fuel a r htr hok hsr]
          by_cases hka : k = a
          · subst hka
            have hflag : (decide (k + 1 < k
                + (numCalls (run method retry retryDelay transport fuel (k + 1)).1 + 1)))
                = true := by
              simp only [decide_eq_true_eq]
              omega
            rw [hflag]
            simp [attemptEvents, attemptBlock, Ev.attemptOf, htr, hra,
              List.filter_append, List.filter]
            intro e he hc
            have hlb := run_attemptOf_lb method retry retryDelay transport fuel (k + 1)
              e he
            have hc' : Ev.attemptOf e = k := hc
            omega
          · have hak' : a + 1 ≤ k := by omega
            have hkk : k < (a + 1)
                + numCalls (run method retry retryDelay transport fuel (a + 1)).1 := by
              omega
            have hih := ih (a + 1) k hak' hkk
            have hne : ¬ (a = k) := fun hc => hka hc.symm
            have hflag : (decide (k + 1 < a
                + (numCalls (run method retry retryDelay transport fuel (a + 1)).1 + 1)))
                = (decide (k + 1 < (a + 1)
                + numCalls (run method retry retryDelay transport fuel (a + 1)).1))
                := by
              rw [decide_eq_decide]
              omega
            have hbeq : (a == k) = false := by
              simp [hne]
            rw [hflag, ← hih]
            simp [attemptEvents, List.filter_append, List.filter, Ev.attemptOf, hbeq]
      · rw [run_ok method retry retryDelay transport (fuel + 1) a r htr hok] at hk ⊢
        have hka : k = a := by
          simp [numCalls, isFetchEv, List.countP_cons] at hk
          omega
        subst hka
        simp [attemptEvents, attemptBlock, Ev.attemptOf, htr, numCalls, isFetchEv,
          List.countP_cons, List.filter]

end Builder

/-- Claim C9: the `beforeSend` and `onResponse` hooks are invoked once per
transport attempt, not once per execution: the trace contains exactly one
`beforeSend` invocation per transport call, and for every attempt `k` of the
execution its events are, in order: merged-signal creation, fresh `Request`
construction, the awaited `beforeSend` invocation, the transport call, then
— when the transport resolved — the `onResponse` invocation with that
attempt's response, and only then (for retried attempts) the backoff
delay. -/
theorem claim_C9 (method : String) (retry : Nat) (retryDelay : Int)
    (transport : Nat → FetchOutcome) (k : Nat) (h1 : 1 ≤ k)
    (h2 : k ≤ numCalls (Builder.response method retry retryDelay transport).1) :
    attemptEvents k (Builder.response method retry retryDelay transport).1
      = attemptBlock transport retryDelay k
          (decide (k < numCalls (Builder.response method retry retryDelay transport).1)) ∧
    List.countP isBeforeSendEv (Builder.response method retry retryDelay transport).1
      = numCalls (Builder.response method retry retryDelay transport).1 := by
  constructor
  · have hmain := Builder.run_attemptEvents method retry retryDelay transport retry 1 k
      h1 (by simp only [Builder.response] at h2 ⊢; omega)
    have hflag : (decide (k + 1 < 1
        + numCalls (Builder.run method retry retryDelay transport retry 1).1))
        = (decide
          (k < numCalls (Builder.run method retry retryDelay transport retry 1).1)) := by
      rw [decide_eq_decide]
      omega
    rw [hflag] at hmain
    simpa [Builder.response] using hmain
  · exact Builder.countP_beforeSend_run method retry retryDelay transport retry 1

/-- Witness for `claim_C9`: GET with `retry = 2` against a transport that
returns 503 on attempt 1 and 200 afterwards, inspecting attempt `k = 1`
(which is retried: its block ends with the clamped 500ms delay). -/
theorem claim_C9_witness :
    attemptEvents 1 (Builder.response "GET" 2 500
        (fun a => if a = 1 then .resolved ⟨503, none⟩ else .resolved ⟨200, none⟩)).1
      = attemptBlock
          (fun a => if a = 1 then .resolved ⟨503, none⟩ else .resolved ⟨200, none⟩)
          500 1
          (decide (1 < numCalls (Builder.response "GET" 2 500
            (fun a => if a = 1 then .resolved ⟨503, none⟩
              else .resolved ⟨200, none⟩)).1)) ∧
    List.countP isBeforeSendEv (Builder.response "GET" 2 500
        (fun a => if a = 1 then .resolved ⟨503, none⟩ else .resolved ⟨200, none⟩)).1
      = numCalls (Builder.response "GET" 2 500
          (fun a => if a = 1 then .resolved ⟨503, none⟩ else .resolved ⟨200, none⟩)).1 :=
  claim_C9 "GET" 2 500
    (fun a => if a = 1 then .resolved ⟨503, none⟩ else .resolved ⟨200, none⟩) 1
    (by decide) (by decide)

end HttpSpec
